import Mathlib

/-!
Verification of the nullnet HIBP breach scanner (src/nullnet.py).

Strings are embedded as `List Char` (Python `str` is a sequence of code
points).  Pure helpers of the source are translated directly; the scan
orchestrator is embedded as a function from an abstract network (the
responses the remote API would return) to the ordered trace of its side
effects (directory creation, HTTP calls, file writes) plus the outcome
it reports for each path.
-/

namespace Nullnet

/-- Python strings as lists of code points. -/
abbrev Str := List Char

/-- Coerce a Lean string literal to the `List Char` representation. -/
def strL (s : String) : Str := s.data

/-- Python `str.ljust(w)`: pad on the right with spaces up to width `w`
(no truncation). -/
def pyLjust (s : Str) (w : Nat) : Str := s ++ List.replicate (w - s.length) ' '

/-- Python `str.center(w)` (CPython `do_center`): if the string is at
least `w` long return it unchanged, else split the margin, putting the
extra fill character following CPython's parity rule. -/
def pyCenter (s : Str) (w : Nat) : Str :=
  if w ≤ s.length then s
  else
    let marg := w - s.length
    let left := marg / 2 + (marg &&& w &&& 1)
    List.replicate left ' ' ++ s ++ List.replicate (marg - left) ' '

/-- Whitespace as recognised by Python `str.strip()` / `str.split()`
(ASCII subset, which is all the scanner's inputs can contain). -/
def isPySpace (c : Char) : Bool :=
  c == ' ' || c == '\t' || c == '\n' || c == '\r' || c == '\x0b' || c == '\x0c'

/-- Python `str.strip()`: drop leading and trailing whitespace. -/
def pyStrip (s : Str) : Str :=
  ((s.dropWhile isPySpace).reverse.dropWhile isPySpace).reverse

/-- Python `str.split()` with no argument: split on whitespace runs,
producing no empty words. -/
def pySplitGo : Str → Str → List Str
  | [], cur => if cur = [] then [] else [cur.reverse]
  | c :: rest, cur =>
    if isPySpace c then
      if cur = [] then pySplitGo rest [] else cur.reverse :: pySplitGo rest []
    else pySplitGo rest (c :: cur)

/-- Python `text.split()` (whitespace splitting). -/
def pySplit (s : Str) : List Str := pySplitGo s []

/-!
## HTML tag stripping (`clean_html_tags`, src/nullnet.py lines 1461-1463)

`re.sub(r'<[^>]*>', '', text)` removes, scanning left to right, every
segment that starts at a `<` and ends at the first later `>`; a `<`
with no later `>` matches nothing and is kept.  `stripAux` is that
scan: `none` is the outside-a-match mode, `some buf` buffers the
characters consumed since the pending `<` (in reverse) so they can be
emitted verbatim when no closing `>` exists.
-/

/-- The scanning loop of `re.sub(r'<[^>]*>', '', text)`. -/
def stripAux : Option Str → Str → Str
  | none, [] => []
  | some buf, [] => buf.reverse
  | none, c :: rest =>
    if c = '<' then stripAux (some [c]) rest else c :: stripAux none rest
  | some buf, c :: rest =>
    if c = '>' then stripAux none rest else stripAux (some (c :: buf)) rest

/-- `re.sub(r'<[^>]*>', '', text)`: remove every `<...>` segment. -/
def stripTags (s : Str) : Str := stripAux none s

/-- Models Python `html.unescape` restricted to the basic named
character references (`&lt;` `&gt;` `&amp;` `&quot;`, with the
semicolon-less legacy forms CPython also accepts); other ampersands
pass through unchanged. -/
def pyUnescape : Str → Str
  | [] => []
  | '&' :: 'l' :: 't' :: ';' :: rest => '<' :: pyUnescape rest
  | '&' :: 'g' :: 't' :: ';' :: rest => '>' :: pyUnescape rest
  | '&' :: 'a' :: 'm' :: 'p' :: ';' :: rest => '&' :: pyUnescape rest
  | '&' :: 'q' :: 'u' :: 'o' :: 't' :: ';' :: rest => '"' :: pyUnescape rest
  | '&' :: 'l' :: 't' :: rest => '<' :: pyUnescape rest
  | '&' :: 'g' :: 't' :: rest => '>' :: pyUnescape rest
  | '&' :: 'a' :: 'm' :: 'p' :: rest => '&' :: pyUnescape rest
  | c :: rest => c :: pyUnescape rest

/-- `HIBPScannerApp.clean_html_tags` (src/nullnet.py lines 1461-1463):
strip `<...>` segments, then decode HTML entities. -/
def clean_html_tags (text : Str) : Str := pyUnescape (stripTags text)

/-!
## Folder-name sanitisation (`sanitize_email_for_folder`, lines 1465-1467)
-/

/-- Python `str.replace(pat, rep)` for a single-character pattern. -/
def pyReplaceChar (s : Str) (pat : Char) (rep : Str) : Str :=
  s.flatMap (fun c => if c = pat then rep else [c])

/-- `HIBPScannerApp.sanitize_email_for_folder` (lines 1465-1467), same
expression inline in `TerminalOnlyApp.perform_scan` (line 298):
`email.replace("@", "_at_").replace(".", "_dot_")`. -/
def sanitize_email_for_folder (email : Str) : Str :=
  pyReplaceChar (pyReplaceChar email '@' (strL "_at_")) '.' (strL "_dot_")

/-!
## Facts about the tag stripper (claim C4)
-/

/-- A string is inert for the tag regex when no `<` in it is followed
(anywhere later) by a `>`: such a string contains no match. -/
def inert : Str → Prop
  | [] => True
  | c :: rest => (c = '<' → '>' ∉ rest) ∧ inert rest

theorem stripAux_no_gt (buf : Str) :
    ∀ s : Str, '>' ∉ s → stripAux (some buf) s = buf.reverse ++ s := by
  intro s
  induction s generalizing buf with
  | nil => intro _; simp [stripAux]
  | cons c rest ih =>
    intro h
    simp only [List.mem_cons, not_or] at h
    have hc : ¬ c = '>' := fun hc => h.1 hc.symm
    simp only [stripAux, if_neg hc]
    rw [ih (c :: buf) h.2]
    simp

theorem inert_of_no_gt : ∀ s : Str, '>' ∉ s → inert s := by
  intro s
  induction s with
  | nil => intro _; trivial
  | cons c rest ih =>
    intro h
    simp only [List.mem_cons, not_or] at h
    exact ⟨fun _ => h.2, ih h.2⟩

theorem stripTags_of_inert : ∀ s : Str, inert s → stripTags s = s := by
  intro s
  induction s with
  | nil => intro _; rfl
  | cons c rest ih =>
    intro h
    by_cases hc : c = '<'
    · subst hc
      simp only [stripTags, stripAux, if_pos rfl]
      rw [stripAux_no_gt _ rest (h.1 rfl)]
      rfl
    · simp only [stripTags, stripAux, if_neg hc]
      have hrest := ih h.2
      simp only [stripTags] at hrest
      rw [hrest]

theorem inert_stripAux : ∀ s : Str,
    inert (stripAux none s) ∧
    (∀ buf : Str, '>' ∉ buf → inert (stripAux (some buf) s)) := by
  intro s
  induction s with
  | nil =>
    refine ⟨trivial, ?_⟩
    intro buf hbuf
    apply inert_of_no_gt
    simpa [stripAux] using hbuf
  | cons c rest ih =>
    constructor
    · by_cases hc : c = '<'
      · subst hc
        simp only [stripAux, if_pos rfl]
        exact ih.2 ['<'] (by decide)
      · simp only [stripAux, if_neg hc]
        exact ⟨fun h => absurd h hc, ih.1⟩
    · intro buf hbuf
      by_cases hc : c = '>'
      · subst hc
        simp only [stripAux, if_pos rfl]
        exact ih.1
      · simp only [stripAux, if_neg hc]
        apply ih.2
        simp only [List.mem_cons, not_or]
        exact ⟨fun h => hc h.symm, hbuf⟩

/-- C4 counterexample input: stripping then entity-decoding
`"&lt;b&gt;"` yields `"<b>"`, and a second application deletes it. -/
theorem C4_counterexample :
    clean_html_tags (clean_html_tags (strL "&lt;b&gt;")) ≠
      clean_html_tags (strL "&lt;b&gt;") := by decide

/-- C4 (amended): the tag-removal step alone (`re.sub(r'<[^>]*>', '')`)
is idempotent; the composite clean (tag removal followed by HTML entity
decoding) is not, since decoding can introduce new tags. -/
theorem C4_strip_idempotent :
    ∀ s : Str, stripTags (stripTags s) = stripTags s := by
  intro s
  exact stripTags_of_inert _ (inert_stripAux s).1

/-!
## Claim C8: folder-name derivation
-/

/-- C8: the folder name replaces every `@` with `_at_` and every `.`
with `_dot_` (stated as the pointwise character substitution), and in
particular maps `"a@b.com"` to `"a_at_b_dot_com"`. -/
theorem C8_folder_derivation :
    (∀ s : Str, sanitize_email_for_folder s =
      s.flatMap (fun c =>
        if c = '@' then strL "_at_" else if c = '.' then strL "_dot_" else [c])) ∧
    sanitize_email_for_folder (strL "a@b.com") = strL "a_at_b_dot_com" := by
  constructor
  · intro s
    induction s with
    | nil => rfl
    | cons c rest ih =>
      simp only [sanitize_email_for_folder, pyReplaceChar, List.flatMap_cons,
        List.flatMap_append] at ih ⊢
      rw [ih]
      congr 1
      by_cases hc : c = '@'
      · subst hc; decide
      · by_cases hd : c = '.'
        · subst hd; decide
        · simp [hc, hd]
  · decide

/-!
## Breach summary formatter

`BreachRecord` embeds the field mapping the formatter reads via
`breach_data.get(key, default)`.  Scalar fields are kept as the display
strings the f-strings would interpolate (`PwnCount`, an integer in the
JSON, is interpolated with `str`); a `none` field renders via the
`"N/A"` default of `.get`.
-/

structure BreachRecord where
  name : Option Str
  title : Option Str
  domain : Option Str
  breachDate : Option Str
  addedDate : Option Str
  modifiedDate : Option Str
  pwnCount : Option Str
  dataClasses : List Str
  isVerified : Option Bool
  isFabricated : Option Bool
  description : Option Str

/-- Python `repr` used by f-string interpolation of a `bool`. -/
def pyBoolStr (b : Bool) : Str := if b then strL "True" else strL "False"

/-- `breach_data.get(key, "N/A")` for a scalar field. -/
def getNA (f : Option Str) : Str := f.getD (strL "N/A")

/-- `breach_data.get(key, 'N/A')` for the two boolean fields, as the
string an f-string renders. -/
def getBoolNA (f : Option Bool) : Str := (f.map pyBoolStr).getD (strL "N/A")

/-- The `(label, value)` pairs of the seven scalar-field lines
(src/nullnet.py lines 411-419 and 1422-1430). -/
def scalar_pairs (r : BreachRecord) : List (Str × Str) :=
  [(strL "Name", getNA r.name),
   (strL "Title", getNA r.title),
   (strL "Domain", getNA r.domain),
   (strL "Breach Date", getNA r.breachDate),
   (strL "Added Date", getNA r.addedDate),
   (strL "Modified", getNA r.modifiedDate),
   (strL "Pwn Count", getNA r.pwnCount)]

/-- `f"{label_text:<12} {value}"` where `label_text = f"{label}:"`. -/
def scalar_text (label value : Str) : Str :=
  pyLjust (label ++ [':']) 12 ++ ' ' :: value

/-- `HIBPScannerApp.print_box_line` (lines 1362-1376), without the
trailing newline: truncate to `box_width - 4`, left-justify, border. -/
def print_box_line (text : Str) (box_width : Nat) : Str :=
  let content_width := box_width - 4
  let truncated := text.take content_width
  let padded := pyLjust truncated content_width
  '║' :: ' ' :: padded ++ [' ', '║']

/-- The greedy line-filling loop of `HIBPScannerApp.wrap_and_box_print`
(lines 1378-1401): `current_line` accumulates words; a word that does
not fit flushes the line. -/
def wrap_words (content_width : Nat) : List Str → Str → List Str
  | [], current_line => if current_line = [] then [] else [current_line]
  | w :: ws, current_line =>
    if content_width < current_line.length + w.length + (if current_line = [] then 0 else 1) then
      current_line :: wrap_words content_width ws w
    else
      wrap_words content_width ws
        (if current_line = [] then w else current_line ++ ' ' :: w)

/-- `HIBPScannerApp.wrap_and_box_print` (lines 1378-1401): wrap and emit
each resulting line through `print_box_line`. -/
def wrap_and_box_print (text : Str) (box_width : Nat) : List Str :=
  (wrap_words (box_width - 4) (pySplit text) []).map
    (fun line => print_box_line line box_width)

/-- `"╔" + "═" * (box_width - 2) + "╗"` with `box_width = 60`. -/
def top_border : Str := '╔' :: List.replicate 58 '═' ++ ['╗']

/-- `"╠" + "═" * (box_width - 2) + "╣"` with `box_width = 60`. -/
def mid_border : Str := '╠' :: List.replicate 58 '═' ++ ['╣']

/-- `"╚" + "═" * (box_width - 2) + "╝"` with `box_width = 60`. -/
def bot_border : Str := '╚' :: List.replicate 58 '═' ++ ['╝']

/-- `HIBPScannerApp.display_breach_summary` (lines 1403-1459): the
ordered lines of the bordered panel (newlines and colour tags elided). -/
def display_breach_summary (r : BreachRecord) : List Str :=
  let box_width := 60
  top_border ::
  print_box_line (pyCenter (strL "BREACH DETAILS") (box_width - 4)) box_width ::
  mid_border ::
  ((scalar_pairs r).map (fun p => print_box_line (scalar_text p.1 p.2) box_width) ++
   (print_box_line (strL "Data Classes:") box_width ::
    r.dataClasses.map (fun cls => print_box_line (strL "  - " ++ cls) box_width)) ++
   [print_box_line (strL "Verified:    " ++ getBoolNA r.isVerified) box_width,
    print_box_line (strL "Fabricated:  " ++ getBoolNA r.isFabricated) box_width,
    print_box_line [] box_width,
    print_box_line (strL "DESCRIPTION:") box_width] ++
   wrap_and_box_print (clean_html_tags (r.description.getD [])) box_width ++
   [bot_border])

/-!
The terminal shell's own formatter, `TerminalOnlyApp.display_breach_summary`
(lines 392-459), renders the scalar fields with
`line_str.ljust(box_width - 4)` and NO truncation (lines 421-425).
-/

/-- The `padded` content of one scalar line of
`TerminalOnlyApp.display_breach_summary` (lines 421-424):
`f"{label}:":<12 {value}` left-justified to `box_width - 4 = 56`,
without truncation. -/
def terminal_scalar_content (label value : Str) : Str :=
  pyLjust (scalar_text label value) 56

/-- One full scalar line `f"║ {padded} ║"` of the terminal formatter
(line 425). -/
def terminal_scalar_line (label value : Str) : Str :=
  '║' :: ' ' :: terminal_scalar_content label value ++ [' ', '║']

/-- The seven scalar-field lines of the terminal formatter
(lines 411-425). -/
def terminal_scalar_lines (r : BreachRecord) : List Str :=
  (scalar_pairs r).map (fun p => terminal_scalar_line p.1 p.2)

/-!
## Claim C1
-/

theorem pyLjust_length (s : Str) (w : Nat) :
    (pyLjust s w).length = max s.length w := by
  simp [pyLjust]
  omega

theorem print_box_line_spec (t : Str) :
    print_box_line t 60 = '║' :: ' ' :: (pyLjust (t.take 56) 56 ++ [' ', '║']) ∧
    (pyLjust (t.take 56) 56).length = 56 := by
  refine ⟨rfl, ?_⟩
  rw [pyLjust_length]
  have := List.length_take_le 56 t
  omega

theorem print_box_line_length (t : Str) :
    (print_box_line t 60).length = 60 := by
  have h := (print_box_line_spec t).2
  simp [print_box_line_spec t |>.1, h]

set_option maxRecDepth 8000 in
/-- C1 counterexample: with the default `boxWidth = 60`, the record
whose `Name` is sixty `a` characters makes the terminal formatter emit
a scalar line whose visible content is 73 characters long — not
truncated to `boxWidth - 4 = 56`. -/
theorem C1_counterexample :
    ((terminal_scalar_lines
        ⟨some (List.replicate 60 'a'), none, none, none, none, none, none,
         [], none, none, none⟩).headD []).length = 77 ∧
    (terminal_scalar_content (strL "Name") (List.replicate 60 'a')).length = 73 ∧
    ¬ (73 = 56) := by
  refine ⟨by decide, by decide, by decide⟩

/-- C1 (amended): in the GUI formatter (`print_box_line` based
`display_breach_summary`), every emitted line is exactly 60 characters
— borders and all content lines, whose visible content is exactly
`boxWidth - 4 = 56` characters, over-long single lines truncated to 56
rather than wrapping or overflowing; the terminal shell's formatter
pads scalar lines to `boxWidth - 4` but does not truncate them, so a
scalar value that does not fit overflows the box. -/
theorem C1_box_line_widths :
    (∀ (r : BreachRecord) (line : Str),
      line ∈ display_breach_summary r → line.length = 60) ∧
    (∀ t : Str,
      print_box_line t 60 = '║' :: ' ' :: (pyLjust (t.take 56) 56 ++ [' ', '║']) ∧
      (pyLjust (t.take 56) 56).length = 56) := by
  constructor
  · intro r line hmem
    have hP : ∀ t : Str, (print_box_line t 60).length = 60 := print_box_line_length
    simp only [display_breach_summary, List.mem_cons, List.append_assoc] at hmem
    obtain rfl | rfl | rfl | hmem := hmem
    · decide
    · exact hP _
    · decide
    rcases List.mem_append.1 hmem with h1 | h1
    · obtain ⟨p, _, rfl⟩ := List.mem_map.1 h1
      exact hP _
    rcases List.mem_append.1 h1 with h2 | h2
    · rcases List.mem_cons.1 h2 with rfl | h3
      · exact hP _
      · obtain ⟨c, _, rfl⟩ := List.mem_map.1 h3
        exact hP _
    rcases List.mem_append.1 h2 with h3 | h3
    · rcases List.mem_cons.1 h3 with rfl | h4
      · exact hP _
      rcases List.mem_cons.1 h4 with rfl | h5
      · exact hP _
      rcases List.mem_cons.1 h5 with rfl | h6
      · exact hP _
      rcases List.mem_cons.1 h6 with rfl | h7
      · exact hP _
      · exact absurd h7 (List.not_mem_nil line)
    rcases List.mem_append.1 h3 with h4 | h4
    · simp only [wrap_and_box_print] at h4
      obtain ⟨w, _, rfl⟩ := List.mem_map.1 h4
      exact hP _
    · rcases List.mem_cons.1 h4 with rfl | h5
      · decide
      · exact absurd h5 (List.not_mem_nil line)
  · exact print_box_line_spec

/-- C1 witness: the top border of a concrete record's panel is a line
of the output and is 60 characters long. -/
theorem C1_witness :
    (top_border : Str).length = 60 := by
  refine C1_box_line_widths.1
    ⟨none, none, none, none, none, none, none, [], none, none, none⟩ top_border ?_
  simp [display_breach_summary]

/-!
## JSON values and Python `json.dump(..., indent=2)`

The scanner never inspects the parsed response beyond field lookups; it
re-serialises the parsed value with `json.dump(breach_data, outfile,
indent=2)` (default `ensure_ascii=True`).  `Json` is the parsed value,
`pyDump2` the exact text `json.dump` emits for it.
-/

inductive Json where
  | null
  | bool (b : Bool)
  | num (n : Int)
  | str (s : Str)
  | arr (elems : List Json)
  | obj (fields : List (Str × Json))

/-- Lowercase hex digit, as CPython's `\uXXXX` escapes use. -/
def hexDigit (n : Nat) : Char :=
  if n < 10 then Char.ofNat (48 + n) else Char.ofNat (87 + n)

/-- A `\uXXXX` escape for one 16-bit unit. -/
def u4 (n : Nat) : Str :=
  '\\' :: 'u' ::
    [hexDigit (n / 4096 % 16), hexDigit (n / 256 % 16), hexDigit (n / 16 % 16), hexDigit (n % 16)]

/-- CPython `json` string-character escaping with `ensure_ascii=True`:
shorthand escapes, ASCII printables verbatim, everything else `\uXXXX`
(surrogate pairs beyond the BMP). -/
def escChar (c : Char) : Str :=
  if c = '"' then ['\\', '"']
  else if c = '\\' then ['\\', '\\']
  else if c = '\n' then ['\\', 'n']
  else if c = '\r' then ['\\', 'r']
  else if c = '\t' then ['\\', 't']
  else if c = '\x08' then ['\\', 'b']
  else if c = '\x0c' then ['\\', 'f']
  else if 32 ≤ c.toNat ∧ c.toNat < 127 then [c]
  else if c.toNat < 65536 then u4 c.toNat
  else u4 (55296 + (c.toNat - 65536) / 1024) ++ u4 (56320 + (c.toNat - 65536) % 1024)

/-- A JSON string literal. -/
def escString (s : Str) : Str := '"' :: s.flatMap escChar ++ ['"']

/-- Python `str` of an integer. -/
def intStr (n : Int) : Str :=
  if n < 0 then '-' :: Nat.toDigits 10 n.natAbs else Nat.toDigits 10 n.natAbs

mutual

/-- `json.dump(v, ..., indent=2)` at nesting level `lvl`. -/
def dumpVal (lvl : Nat) : Json → Str
  | .null => strL "null"
  | .bool true => strL "true"
  | .bool false => strL "false"
  | .num n => intStr n
  | .str s => escString s
  | .arr [] => ['[', ']']
  | .arr (e :: es) =>
    '[' :: '\n' :: dumpItems (lvl + 1) e es ++ '\n' :: List.replicate (2 * lvl) ' ' ++ [']']
  | .obj [] => ['\x7b', '\x7d']
  | .obj (f :: fs) =>
    '\x7b' :: '\n' :: dumpFields (lvl + 1) f fs ++ '\n' :: List.replicate (2 * lvl) ' ' ++ ['\x7d']
termination_by j => sizeOf j

/-- The `",\n"`-separated, indented items of a non-empty array. -/
def dumpItems (lvl : Nat) : Json → List Json → Str
  | e, [] => List.replicate (2 * lvl) ' ' ++ dumpVal lvl e
  | e, e2 :: rest =>
    List.replicate (2 * lvl) ' ' ++ dumpVal lvl e ++ ',' :: '\n' :: dumpItems lvl e2 rest
termination_by e es => sizeOf e + sizeOf es

/-- The `",\n"`-separated, indented `"key": value` fields of a
non-empty object. -/
def dumpFields (lvl : Nat) : Str × Json → List (Str × Json) → Str
  | (k, v), [] => List.replicate (2 * lvl) ' ' ++ escString k ++ ':' :: ' ' :: dumpVal lvl v
  | (k, v), f2 :: rest =>
    List.replicate (2 * lvl) ' ' ++ escString k ++ ':' :: ' ' :: dumpVal lvl v ++
      ',' :: '\n' :: dumpFields lvl f2 rest
termination_by f fs => sizeOf f + sizeOf fs

end

/-- `json.dump(breach_data, outfile, indent=2)`: the exact file text
written by `save_breach_data_to_json` (lines 1469-1471) and by the
terminal shell's inline `json.dump` calls (lines 340-341, 377-378). -/
def pyDump2 (v : Json) : Str := dumpVal 0 v

/-!
## The scan orchestrator

`perform_scan` (GUI: lines 1255-1357; terminal: lines 275-390, same
control flow) is embedded as a function from the abstract network — the
response each endpoint would give — to the ordered trace of its side
effects and reported outcomes.

The account-lookup response body is the list of the `Name` fields of
its entries (the only part the code reads, line 1298); a breach-detail
response body is a full `Json` value.
-/

/-- One HTTP response, or a transport-level failure of the request
(`requests.exceptions.RequestException` other than `HTTPError`). -/
inductive Resp (α : Type) where
  | ok (status : Nat) (body : α)
  | netErr (msg : Str)

/-- What the remote API would answer. -/
structure Network where
  account : Resp (List Str)
  detail : Str → Resp Json

/-- The cause carried by a `TransportError` outcome: a transport
failure's message, or a non-2xx status raised by `raise_for_status`. -/
inductive ErrSrc where
  | net (msg : Str)
  | httpStatus (code : Nat)

/-- The `ScanOutcome` variants of the spec, as the code's branches
report them. -/
inductive Outcome where
  | NoBreachesFound
  | BreachesFound (records : List Json)
  | SingleBreachFound (record : Json)
  | BreachNotFound (name : Str)
  | TransportError (e : ErrSrc)

/-- One HTTP request. -/
inductive Call where
  | accountLookup (email : Str)
  | breachDetail (name : Str)

/-- One observable step of the orchestrator, in program order. -/
inductive Ev where
  | mkdir (dir : Str)
  | call (c : Call)
  | write (filename : Str) (content : Str)
  | outcome (o : Outcome)

/-- `resp.raise_for_status()` raises exactly for 4xx and 5xx. -/
def raisesFor (s : Nat) : Bool := 400 ≤ s && s < 600

/-- `os.path.join(folder_name, f"{breach_name}.json")`. -/
def breachFileName (folder n : Str) : Str := folder ++ '/' :: n ++ strL ".json"

/-- The per-breach detail loop of the email path (lines 1297-1312):
fetch each named breach; any `RequestException` (transport failure or
raised status, 404 included) aborts the remaining fetches; a successful
fetch writes `<folder>/<Name>.json` and accumulates the record. -/
def fetch_breaches (folder : Str) (net : Network) : List Str → List Ev × Option (List Json)
  | [] => ([], some [])
  | n :: rest =>
    match net.detail n with
    | .netErr m => ([.call (.breachDetail n), .outcome (.TransportError (.net m))], none)
    | .ok s body =>
      if raisesFor s then
        ([.call (.breachDetail n), .outcome (.TransportError (.httpStatus s))], none)
      else
        let r := fetch_breaches folder net rest
        (.call (.breachDetail n) ::
           .write (breachFileName folder n) (pyDump2 body) :: r.1,
         r.2.map (fun recs => body :: recs))

/-- The email path of `perform_scan` (lines 1264-1321).  The second
component is the early-`return` flag: the 404 and empty-list branches
`return` from the whole function (lines 1279-1284, 1289-1292), which
skips the breach-name path; the `except` branch falls through. -/
def email_scan (email : Str) (net : Network) : List Ev × Bool :=
  if email = [] then ([], false)
  else
    let folder := sanitize_email_for_folder email
    let pre : List Ev := [.mkdir folder, .call (.accountLookup email)]
    match net.account with
    | .netErr m => (pre ++ [.outcome (.TransportError (.net m))], false)
    | .ok s names =>
      if s = 404 then (pre ++ [.outcome .NoBreachesFound], true)
      else if raisesFor s then (pre ++ [.outcome (.TransportError (.httpStatus s))], false)
      else if names = [] then (pre ++ [.outcome .NoBreachesFound], true)
      else
        match fetch_breaches folder net names with
        | (evs, some recs) => (pre ++ evs ++ [.outcome (.BreachesFound recs)], false)
        | (evs, none) => (pre ++ evs, false)

/-- The breach-name path of `perform_scan` (lines 1323-1357): one
detail call; 404 reports not-found and writes nothing; success writes
`<breach>.json` in the working directory. -/
def breach_lookup (breach : Str) (net : Network) : List Ev :=
  if breach = [] then []
  else
    .call (.breachDetail breach) ::
      match net.detail breach with
      | .netErr m => [.outcome (.TransportError (.net m))]
      | .ok s body =>
        if s = 404 then [.outcome (.BreachNotFound breach)]
        else if raisesFor s then [.outcome (.TransportError (.httpStatus s))]
        else
          [.write (breach ++ strL ".json") (pyDump2 body),
           .outcome (.SingleBreachFound body)]

/-- `HIBPScannerApp.perform_scan` (lines 1255-1357): the email path,
then — unless it `return`ed early — the breach-name path. -/
def perform_scan (email breach : Str) (net : Network) : List Ev :=
  let r := email_scan email net
  if r.2 then r.1 else r.1 ++ breach_lookup breach net

/-!
## Input sanitisation and validation (`start_scan`, lines 1219-1253)
-/

/-- `re.sub(r"[\r\n\t]+", "", s)`. -/
def stripCRLFTab (s : Str) : Str :=
  s.filter (fun c => !(c == '\r' || c == '\n' || c == '\t'))

/-- Membership in the email character class `[a-zA-Z0-9@._\-+]`
(line 1235 keeps exactly these). -/
def isEmailChar (c : Char) : Bool :=
  (97 ≤ c.toNat && c.toNat ≤ 122) || (65 ≤ c.toNat && c.toNat ≤ 90) ||
  (48 ≤ c.toNat && c.toNat ≤ 57) ||
  c == '@' || c == '.' || c == '_' || c == '-' || c == '+'

/-- Membership in the breach-name character class `[a-zA-Z0-9._\-]`
(line 1236 keeps exactly these). -/
def isBreachChar (c : Char) : Bool :=
  (97 ≤ c.toNat && c.toNat ≤ 122) || (65 ≤ c.toNat && c.toNat ≤ 90) ||
  (48 ≤ c.toNat && c.toNat ≤ 57) ||
  c == '.' || c == '_' || c == '-'

/-- The email field as `start_scan` sanitises it (lines 1226-1235):
`strip()`, remove `[\r\n\t]+`, keep only `[a-zA-Z0-9@._\-+]`. -/
def sanitized_email (raw : Str) : Str :=
  (stripCRLFTab (pyStrip raw)).filter isEmailChar

/-- The breach field as `start_scan` sanitises it (lines 1227-1236). -/
def sanitized_breach (raw : Str) : Str :=
  (stripCRLFTab (pyStrip raw)).filter isBreachChar

/-- The two validation failures `start_scan` reports before any network
activity (lines 1243-1250). -/
inductive VErr where
  | missingKey
  | missingBoth

/-- `HIBPScannerApp.start_scan` (lines 1219-1253): sanitise the inputs,
validate (missing API key first, then both-fields-empty), and only then
run `perform_scan` on the sanitised values.  Returns the event trace
(empty when validation rejects) and the validation error, if any. -/
def start_scan (rawEmail rawBreach rawKey : Str) (net : Network) :
    List Ev × Option VErr :=
  let email := sanitized_email rawEmail
  let breach := sanitized_breach rawBreach
  let key := pyStrip rawKey
  if key = [] then ([], some .missingKey)
  else if email = [] ∧ breach = [] then ([], some .missingBoth)
  else (perform_scan email breach net, none)

/-!
## Branch behaviour of the orchestrator
-/

theorem email_scan_netErr (email : Str) (net : Network) (m : Str)
    (he : email ≠ []) (ha : net.account = .netErr m) :
    email_scan email net =
      ([Ev.mkdir (sanitize_email_for_folder email), Ev.call (.accountLookup email),
        Ev.outcome (.TransportError (.net m))], false) := by
  simp [email_scan, ha, he]

theorem email_scan_404 (email : Str) (net : Network) (b : List Str)
    (he : email ≠ []) (ha : net.account = .ok 404 b) :
    email_scan email net =
      ([Ev.mkdir (sanitize_email_for_folder email), Ev.call (.accountLookup email),
        Ev.outcome .NoBreachesFound], true) := by
  simp [email_scan, ha, he]

theorem email_scan_emptyList (email : Str) (net : Network)
    (he : email ≠ []) (ha : net.account = .ok 200 []) :
    email_scan email net =
      ([Ev.mkdir (sanitize_email_for_folder email), Ev.call (.accountLookup email),
        Ev.outcome .NoBreachesFound], true) := by
  simp [email_scan, ha, he, raisesFor]

theorem email_scan_badStatus (email : Str) (net : Network) (s : Nat) (names : List Str)
    (he : email ≠ []) (ha : net.account = .ok s names)
    (h4 : s ≠ 404) (hr : raisesFor s = true) :
    email_scan email net =
      ([Ev.mkdir (sanitize_email_for_folder email), Ev.call (.accountLookup email),
        Ev.outcome (.TransportError (.httpStatus s))], false) := by
  simp [email_scan, ha, he, h4, hr]

theorem fetch_breaches_all_ok (folder : Str) (net : Network) (detailF : Str → Json) :
    ∀ names : List Str, (∀ n ∈ names, net.detail n = .ok 200 (detailF n)) →
    fetch_breaches folder net names =
      (names.flatMap (fun n =>
        [Ev.call (.breachDetail n),
         Ev.write (breachFileName folder n) (pyDump2 (detailF n))]),
       some (names.map detailF)) := by
  intro names
  induction names with
  | nil => intro _; rfl
  | cons n rest ih =>
    intro h
    have hn : net.detail n = .ok 200 (detailF n) := h n (List.mem_cons_self n rest)
    have hr := ih (fun m hm => h m (List.mem_cons_of_mem n hm))
    simp [fetch_breaches, hn, hr, raisesFor]

theorem email_scan_success (email : Str) (net : Network) (names : List Str)
    (detailF : Str → Json) (he : email ≠ []) (hn : names ≠ [])
    (ha : net.account = .ok 200 names)
    (hd : ∀ n ∈ names, net.detail n = .ok 200 (detailF n)) :
    email_scan email net =
      (Ev.mkdir (sanitize_email_for_folder email) ::
       Ev.call (.accountLookup email) ::
       (names.flatMap (fun n =>
          [Ev.call (.breachDetail n),
           Ev.write (breachFileName (sanitize_email_for_folder email) n)
             (pyDump2 (detailF n))]) ++
        [Ev.outcome (.BreachesFound (names.map detailF))]), false) := by
  have hf := fetch_breaches_all_ok (sanitize_email_for_folder email) net detailF names hd
  simp [email_scan, ha, he, hn, hf, raisesFor]

theorem fetch_breaches_netErr_mid (folder : Str) (net : Network) (detailF : Str → Json) :
    ∀ (good : List Str) (bad : Str) (rest : List Str) (m : Str),
      (∀ n ∈ good, net.detail n = .ok 200 (detailF n)) → net.detail bad = .netErr m →
      fetch_breaches folder net (good ++ bad :: rest) =
        (good.flatMap (fun n =>
          [Ev.call (.breachDetail n),
           Ev.write (breachFileName folder n) (pyDump2 (detailF n))]) ++
         [Ev.call (.breachDetail bad), Ev.outcome (.TransportError (.net m))], none) := by
  intro good
  induction good with
  | nil =>
    intro bad rest m _ hbad
    simp [fetch_breaches, hbad]
  | cons g good ih =>
    intro bad rest m hgood hbad
    have hg : net.detail g = .ok 200 (detailF g) := hgood g (List.mem_cons_self g good)
    have hr := ih bad rest m (fun n hn => hgood n (List.mem_cons_of_mem g hn)) hbad
    simp [fetch_breaches, List.cons_append, hg, hr, raisesFor]

theorem fetch_breaches_badStatus_mid (folder : Str) (net : Network) (detailF : Str → Json) :
    ∀ (good : List Str) (bad : Str) (rest : List Str) (s : Nat) (body : Json),
      (∀ n ∈ good, net.detail n = .ok 200 (detailF n)) →
      net.detail bad = .ok s body → raisesFor s = true →
      fetch_breaches folder net (good ++ bad :: rest) =
        (good.flatMap (fun n =>
          [Ev.call (.breachDetail n),
           Ev.write (breachFileName folder n) (pyDump2 (detailF n))]) ++
         [Ev.call (.breachDetail bad), Ev.outcome (.TransportError (.httpStatus s))],
         none) := by
  intro good
  induction good with
  | nil =>
    intro bad rest s body _ hbad hs
    simp [fetch_breaches, hbad, hs]
  | cons g good ih =>
    intro bad rest s body hgood hbad hs
    have hg : net.detail g = .ok 200 (detailF g) := hgood g (List.mem_cons_self g good)
    have hr := ih bad rest s body (fun n hn => hgood n (List.mem_cons_of_mem g hn)) hbad hs
    simp [fetch_breaches, List.cons_append, hg, hr, raisesFor]

theorem email_scan_fetchFail (email : Str) (net : Network) (names : List Str) (evs : List Ev)
    (he : email ≠ []) (ha : net.account = .ok 200 names) (hn : names ≠ [])
    (hf : fetch_breaches (sanitize_email_for_folder email) net names = (evs, none)) :
    email_scan email net =
      (Ev.mkdir (sanitize_email_for_folder email) ::
       Ev.call (.accountLookup email) :: evs, false) := by
  simp [email_scan, ha, he, hn, hf, raisesFor]

theorem email_scan_shape (email : Str) (net : Network) (he : ¬ email = []) :
    ∃ rest stop, email_scan email net =
      (Ev.mkdir (sanitize_email_for_folder email) ::
       Ev.call (Call.accountLookup email) :: rest, stop) := by
  unfold email_scan
  rw [if_neg he]
  cases hacc : net.account with
  | netErr m => exact ⟨_, _, rfl⟩
  | ok s names =>
    dsimp only
    by_cases h4 : s = 404
    · rw [if_pos h4]; exact ⟨_, _, rfl⟩
    rw [if_neg h4]
    by_cases hr : raisesFor s = true
    · rw [if_pos hr]; exact ⟨_, _, rfl⟩
    rw [if_neg hr]
    by_cases hn : names = []
    · rw [if_pos hn]; exact ⟨_, _, rfl⟩
    rw [if_neg hn]
    cases hf : fetch_breaches (sanitize_email_for_folder email) net names with
    | mk evs r =>
      cases r with
      | none => exact ⟨_, _, rfl⟩
      | some recs => exact ⟨_, _, rfl⟩

/-!
## Claim C5: account 404 means NoBreachesFound, nothing further
-/

/-- C5: when the account-lookup endpoint answers 404 for a non-empty
email, the scan reports `NoBreachesFound`, issues no further HTTP call
(its whole trace is the directory creation and the single lookup), and
writes no file. -/
theorem C5_account_404 :
    ∀ (email breach : Str) (net : Network) (b : List Str),
      email ≠ [] → net.account = .ok 404 b →
      perform_scan email breach net =
        [Ev.mkdir (sanitize_email_for_folder email),
         Ev.call (.accountLookup email),
         Ev.outcome .NoBreachesFound] := by
  intro email breach net b he ha
  simp [perform_scan, email_scan_404 email net b he ha]

set_option maxRecDepth 4000 in
/-- C5 witness at a concrete email, breach name, and network. -/
theorem C5_witness :
    perform_scan (strL "a@b.com") (strL "Adobe")
        ⟨Resp.ok 404 [], fun _ => Resp.ok 200 Json.null⟩ =
      [Ev.mkdir (strL "a_at_b_dot_com"),
       Ev.call (.accountLookup (strL "a@b.com")),
       Ev.outcome .NoBreachesFound] := by
  have h := C5_account_404 (strL "a@b.com") (strL "Adobe")
    ⟨Resp.ok 404 [], fun _ => Resp.ok 200 Json.null⟩ [] (by decide) rfl
  rw [show sanitize_email_for_folder (strL "a@b.com") = strL "a_at_b_dot_com" by decide] at h
  exact h

/-!
## Claim C6: breach-name 404 means BreachNotFound, no file
-/

/-- C6: a breach-name lookup answered 404 yields `BreachNotFound(name)`
and writes nothing (its trace is the single call and the outcome), both
as the path itself and through `perform_scan`. -/
theorem C6_breach_404 :
    ∀ (breach : Str) (net : Network) (b : Json),
      breach ≠ [] → net.detail breach = .ok 404 b →
      breach_lookup breach net =
        [Ev.call (.breachDetail breach), Ev.outcome (.BreachNotFound breach)] ∧
      perform_scan [] breach net =
        [Ev.call (.breachDetail breach), Ev.outcome (.BreachNotFound breach)] := by
  intro breach net b hb hd
  have h1 : breach_lookup breach net =
      [Ev.call (.breachDetail breach), Ev.outcome (.BreachNotFound breach)] := by
    simp [breach_lookup, hb, hd]
  exact ⟨h1, by simp [perform_scan, email_scan, h1]⟩

/-- C6 witness at a concrete breach name and network. -/
theorem C6_witness :
    breach_lookup (strL "Adobe") ⟨Resp.ok 200 [], fun _ => Resp.ok 404 Json.null⟩ =
      [Ev.call (.breachDetail (strL "Adobe")),
       Ev.outcome (.BreachNotFound (strL "Adobe"))] :=
  (C6_breach_404 (strL "Adobe") ⟨Resp.ok 200 [], fun _ => Resp.ok 404 Json.null⟩
    Json.null (by decide) rfl).1

/-!
## Claim C7: validation precedes any network activity
-/

/-- C7: a scan request whose API key strips to empty, or whose email and
breach name both sanitise to empty, is rejected with the corresponding
validation error and produces an empty event trace — no directory, no
HTTP call, no file. -/
theorem C7_validation_first :
    ∀ (rawEmail rawBreach rawKey : Str) (net : Network),
      (pyStrip rawKey = [] →
        start_scan rawEmail rawBreach rawKey net = ([], some VErr.missingKey)) ∧
      (pyStrip rawKey ≠ [] → sanitized_email rawEmail = [] → sanitized_breach rawBreach = [] →
        start_scan rawEmail rawBreach rawKey net = ([], some VErr.missingBoth)) := by
  intro rawEmail rawBreach rawKey net
  constructor
  · intro hk
    simp [start_scan, hk]
  · intro hk he hb
    simp [start_scan, hk, he, hb]

/-- C7 witness: the empty request with a key is rejected as missing
both fields; the keyless request is rejected as missing the key. -/
theorem C7_witness :
    start_scan [] [] (strL "k") ⟨Resp.ok 404 [], fun _ => Resp.ok 404 Json.null⟩ =
      ([], some VErr.missingBoth) ∧
    start_scan [] [] [] ⟨Resp.ok 404 [], fun _ => Resp.ok 404 Json.null⟩ =
      ([], some VErr.missingKey) :=
  ⟨(C7_validation_first [] [] (strL "k") _).2 (by decide) rfl rfl,
   (C7_validation_first [] [] [] _).1 rfl⟩

/-!
## Claim C9: the per-email directory is created before the lookup
-/

/-- C9: for every email scan the first two events are, in order, the
creation of the sanitised per-email directory and the account-lookup
call — so the directory exists even when the outcome is
`NoBreachesFound` (404) or `TransportError` and, as the explicit traces
of those two cases show, no file is ever written into it. -/
theorem C9_mkdir_first :
    ∀ (email breach : Str) (net : Network), email ≠ [] →
      (∃ rest, perform_scan email breach net =
        Ev.mkdir (sanitize_email_for_folder email) ::
        Ev.call (.accountLookup email) :: rest) ∧
      (∀ m, net.account = .netErr m →
        perform_scan email breach net =
          [Ev.mkdir (sanitize_email_for_folder email),
           Ev.call (.accountLookup email),
           Ev.outcome (.TransportError (.net m))] ++ breach_lookup breach net) ∧
      (∀ b, net.account = .ok 404 b →
        perform_scan email breach net =
          [Ev.mkdir (sanitize_email_for_folder email),
           Ev.call (.accountLookup email),
           Ev.outcome .NoBreachesFound]) := by
  intro email breach net he
  refine ⟨?_, ?_, ?_⟩
  · obtain ⟨rest, stop, hs⟩ := email_scan_shape email net he
    cases stop with
    | true => exact ⟨rest, by simp [perform_scan, hs]⟩
    | false => exact ⟨rest ++ breach_lookup breach net, by simp [perform_scan, hs]⟩
  · intro m ha
    simp [perform_scan, email_scan_netErr email net m he ha]
  · intro b ha
    simp [perform_scan, email_scan_404 email net b he ha]

set_option maxRecDepth 4000 in
/-- C9 witness: concrete transport-failure scan whose trace still opens
with the directory creation. -/
theorem C9_witness :
    perform_scan (strL "a@b.com") []
        ⟨Resp.netErr (strL "timeout"), fun _ => Resp.ok 404 Json.null⟩ =
      [Ev.mkdir (sanitize_email_for_folder (strL "a@b.com")),
       Ev.call (.accountLookup (strL "a@b.com")),
       Ev.outcome (.TransportError (.net (strL "timeout")))] := by
  have h := (C9_mkdir_first (strL "a@b.com") []
    ⟨Resp.netErr (strL "timeout"), fun _ => Resp.ok 404 Json.null⟩ (by decide)).2.1
    (strL "timeout") rfl
  simpa [breach_lookup] using h

/-!
## Claim C2: saved files are the pretty-printed response bodies
-/

/-- C2: every per-breach file of the email path is written at
`<dir>/<Name>.json` with content exactly `json.dump(body, indent=2)` of
the unmodified response body, the detail calls are issued in the order
the account lookup returned the names, and `BreachesFound` carries the
bodies in that order; the breach-name path likewise writes
`<breachName>.json` with exactly the pretty-printed response body. -/
theorem C2_files_are_response_bodies :
    (∀ (email : Str) (net : Network) (names : List Str) (detailF : Str → Json),
      email ≠ [] → names ≠ [] → net.account = .ok 200 names →
      (∀ n ∈ names, net.detail n = .ok 200 (detailF n)) →
      perform_scan email [] net =
        Ev.mkdir (sanitize_email_for_folder email) ::
        Ev.call (.accountLookup email) ::
        (names.flatMap (fun n =>
          [Ev.call (.breachDetail n),
           Ev.write (breachFileName (sanitize_email_for_folder email) n)
             (pyDump2 (detailF n))]) ++
         [Ev.outcome (.BreachesFound (names.map detailF))])) ∧
    (∀ (breach : Str) (net : Network) (body : Json),
      breach ≠ [] → net.detail breach = .ok 200 body →
      breach_lookup breach net =
        [Ev.call (.breachDetail breach),
         Ev.write (breach ++ strL ".json") (pyDump2 body),
         Ev.outcome (.SingleBreachFound body)]) := by
  constructor
  · intro email net names detailF he hn ha hd
    simp [perform_scan, email_scan_success email net names detailF he hn ha hd,
      breach_lookup]
  · intro breach net body hb hd
    simp [breach_lookup, hb, hd, raisesFor]

set_option maxRecDepth 4000 in
/-- C2 witness: the `["Adobe", "LinkedIn"]` scenario of the spec — two
detail calls in response order, two writes whose contents are the
2-space pretty-printings of the respective bodies verbatim. -/
theorem C2_witness :
    perform_scan (strL "a@b.com") []
        ⟨Resp.ok 200 [strL "Adobe", strL "LinkedIn"],
         fun n => Resp.ok 200 (Json.obj [(strL "Name", Json.str n)])⟩ =
      [Ev.mkdir (strL "a_at_b_dot_com"),
       Ev.call (.accountLookup (strL "a@b.com")),
       Ev.call (.breachDetail (strL "Adobe")),
       Ev.write (strL "a_at_b_dot_com/Adobe.json")
         (pyDump2 (Json.obj [(strL "Name", Json.str (strL "Adobe"))])),
       Ev.call (.breachDetail (strL "LinkedIn")),
       Ev.write (strL "a_at_b_dot_com/LinkedIn.json")
         (pyDump2 (Json.obj [(strL "Name", Json.str (strL "LinkedIn"))])),
       Ev.outcome (.BreachesFound
         [Json.obj [(strL "Name", Json.str (strL "Adobe"))],
          Json.obj [(strL "Name", Json.str (strL "LinkedIn"))]])] := by
  have h := C2_files_are_response_bodies.1 (strL "a@b.com")
    ⟨Resp.ok 200 [strL "Adobe", strL "LinkedIn"],
     fun n => Resp.ok 200 (Json.obj [(strL "Name", Json.str n)])⟩
    [strL "Adobe", strL "LinkedIn"]
    (fun n => Json.obj [(strL "Name", Json.str n)])
    (by decide) (by decide) rfl (fun n _ => rfl)
  rw [show sanitize_email_for_folder (strL "a@b.com") = strL "a_at_b_dot_com" by decide] at h
  simp only [List.flatMap_cons, List.flatMap_nil, List.map_cons, List.map_nil,
    List.append_nil] at h
  rw [show breachFileName (strL "a_at_b_dot_com") (strL "Adobe") =
      strL "a_at_b_dot_com/Adobe.json" by decide,
    show breachFileName (strL "a_at_b_dot_com") (strL "LinkedIn") =
      strL "a_at_b_dot_com/LinkedIn.json" by decide] at h
  simpa using h

/-!
## Claim C3: when does the breach-name path run?
-/

set_option maxRecDepth 4000 in
/-- C3 counterexample: both fields non-empty, the account lookup
answers 404 — the email path resolves to `NoBreachesFound`, yet the
breach-name path never executes: no detail call for `"Adobe"` (and no
breach-path outcome) appears in the trace, because the 404 branch
`return`s from the whole of `perform_scan`. -/
theorem C3_counterexample :
    strL "a@b.com" ≠ [] ∧ strL "Adobe" ≠ [] ∧
    perform_scan (strL "a@b.com") (strL "Adobe")
        ⟨Resp.ok 404 [], fun _ => Resp.ok 200 Json.null⟩ =
      [Ev.mkdir (strL "a_at_b_dot_com"),
       Ev.call (.accountLookup (strL "a@b.com")),
       Ev.outcome .NoBreachesFound] ∧
    Ev.call (.breachDetail (strL "Adobe")) ∉
      perform_scan (strL "a@b.com") (strL "Adobe")
        ⟨Resp.ok 404 [], fun _ => Resp.ok 200 Json.null⟩ := by
  refine ⟨by decide, by decide, ?_, ?_⟩
  · rfl
  · rw [show perform_scan (strL "a@b.com") (strL "Adobe")
        ⟨Resp.ok 404 [], fun _ => Resp.ok 200 Json.null⟩ =
      [Ev.mkdir (strL "a_at_b_dot_com"),
       Ev.call (.accountLookup (strL "a@b.com")),
       Ev.outcome .NoBreachesFound] from rfl]
    simp

/-- C3 (amended): with both fields non-empty, the breach-name path runs
after the email path has resolved when that path ends in a failure — a
transport failure or raised status of the account lookup, or a
transport failure or raised status of any per-breach detail fetch
(which aborts the loop, keeping the files already written) — or in
success; but when the email path yields `NoBreachesFound` (account 404
or empty breach list) the orchestrator returns early and the
breach-name path does not execute. -/
theorem C3_breach_path_after_email :
    (∀ (email breach : Str) (net : Network) (m : Str),
      email ≠ [] → net.account = .netErr m →
      perform_scan email breach net =
        [Ev.mkdir (sanitize_email_for_folder email),
         Ev.call (.accountLookup email),
         Ev.outcome (.TransportError (.net m))] ++ breach_lookup breach net) ∧
    (∀ (email breach : Str) (net : Network) (s : Nat) (names : List Str),
      email ≠ [] → net.account = .ok s names → s ≠ 404 → raisesFor s = true →
      perform_scan email breach net =
        [Ev.mkdir (sanitize_email_for_folder email),
         Ev.call (.accountLookup email),
         Ev.outcome (.TransportError (.httpStatus s))] ++ breach_lookup breach net) ∧
    (∀ (email breach : Str) (net : Network) (names : List Str) (detailF : Str → Json),
      email ≠ [] → names ≠ [] → net.account = .ok 200 names →
      (∀ n ∈ names, net.detail n = .ok 200 (detailF n)) →
      perform_scan email breach net =
        (Ev.mkdir (sanitize_email_for_folder email) ::
         Ev.call (.accountLookup email) ::
         (names.flatMap (fun n =>
            [Ev.call (.breachDetail n),
             Ev.write (breachFileName (sanitize_email_for_folder email) n)
               (pyDump2 (detailF n))]) ++
          [Ev.outcome (.BreachesFound (names.map detailF))])) ++
        breach_lookup breach net) ∧
    (∀ (email breach : Str) (net : Network) (good : List Str) (bad : Str)
       (rest : List Str) (m : Str) (detailF : Str → Json),
      email ≠ [] → net.account = .ok 200 (good ++ bad :: rest) →
      (∀ n ∈ good, net.detail n = .ok 200 (detailF n)) → net.detail bad = .netErr m →
      perform_scan email breach net =
        (Ev.mkdir (sanitize_email_for_folder email) ::
         Ev.call (.accountLookup email) ::
         (good.flatMap (fun n =>
            [Ev.call (.breachDetail n),
             Ev.write (breachFileName (sanitize_email_for_folder email) n)
               (pyDump2 (detailF n))]) ++
          [Ev.call (.breachDetail bad), Ev.outcome (.TransportError (.net m))])) ++
        breach_lookup breach net) ∧
    (∀ (email breach : Str) (net : Network) (good : List Str) (bad : Str)
       (rest : List Str) (s : Nat) (body : Json) (detailF : Str → Json),
      email ≠ [] → net.account = .ok 200 (good ++ bad :: rest) →
      (∀ n ∈ good, net.detail n = .ok 200 (detailF n)) →
      net.detail bad = .ok s body → raisesFor s = true →
      perform_scan email breach net =
        (Ev.mkdir (sanitize_email_for_folder email) ::
         Ev.call (.accountLookup email) ::
         (good.flatMap (fun n =>
            [Ev.call (.breachDetail n),
             Ev.write (breachFileName (sanitize_email_for_folder email) n)
               (pyDump2 (detailF n))]) ++
          [Ev.call (.breachDetail bad),
           Ev.outcome (.TransportError (.httpStatus s))])) ++
        breach_lookup breach net) ∧
    (∀ (email breach : Str) (net : Network) (b : List Str),
      email ≠ [] → net.account = .ok 404 b →
      perform_scan email breach net =
        [Ev.mkdir (sanitize_email_for_folder email),
         Ev.call (.accountLookup email),
         Ev.outcome .NoBreachesFound]) ∧
    (∀ (email breach : Str) (net : Network),
      email ≠ [] → net.account = .ok 200 [] →
      perform_scan email breach net =
        [Ev.mkdir (sanitize_email_for_folder email),
         Ev.call (.accountLookup email),
         Ev.outcome .NoBreachesFound]) := by
  refine ⟨?_, ?_, ?_, ?_, ?_, ?_, ?_⟩
  · intro email breach net m he ha
    simp [perform_scan, email_scan_netErr email net m he ha]
  · intro email breach net s names he ha h4 hr
    simp [perform_scan, email_scan_badStatus email net s names he ha h4 hr]
  · intro email breach net names detailF he hn ha hd
    simp [perform_scan, email_scan_success email net names detailF he hn ha hd]
  · intro email breach net good bad rest m detailF he ha hgood hbad
    have hf := fetch_breaches_netErr_mid (sanitize_email_for_folder email) net detailF
      good bad rest m hgood hbad
    have hes := email_scan_fetchFail email net (good ++ bad :: rest) _ he ha (by simp) hf
    simp [perform_scan, hes]
  · intro email breach net good bad rest s body detailF he ha hgood hbad hs
    have hf := fetch_breaches_badStatus_mid (sanitize_email_for_folder email) net detailF
      good bad rest s body hgood hbad hs
    have hes := email_scan_fetchFail email net (good ++ bad :: rest) _ he ha (by simp) hf
    simp [perform_scan, hes]
  · intro email breach net b he ha
    simp [perform_scan, email_scan_404 email net b he ha]
  · intro email breach net he ha
    simp [perform_scan, email_scan_emptyList email net he ha]

set_option maxRecDepth 4000 in
/-- C3 witness: a transport failure on the email path — at the account
lookup, or mid-way through the per-breach detail loop — does not stop
the breach-name path from running. -/
theorem C3_witness :
    perform_scan (strL "a@b.com") (strL "Adobe")
        ⟨Resp.netErr (strL "timeout"), fun _ => Resp.ok 200 Json.null⟩ =
      [Ev.mkdir (sanitize_email_for_folder (strL "a@b.com")),
       Ev.call (.accountLookup (strL "a@b.com")),
       Ev.outcome (.TransportError (.net (strL "timeout")))] ++
      breach_lookup (strL "Adobe")
        ⟨Resp.netErr (strL "timeout"), fun _ => Resp.ok 200 Json.null⟩ ∧
    perform_scan (strL "a@b.com") (strL "Adobe")
        ⟨Resp.ok 200 [strL "X"], fun _ => Resp.netErr (strL "boom")⟩ =
      [Ev.mkdir (sanitize_email_for_folder (strL "a@b.com")),
       Ev.call (.accountLookup (strL "a@b.com")),
       Ev.call (.breachDetail (strL "X")),
       Ev.outcome (.TransportError (.net (strL "boom")))] ++
      breach_lookup (strL "Adobe")
        ⟨Resp.ok 200 [strL "X"], fun _ => Resp.netErr (strL "boom")⟩ := by
  constructor
  · exact C3_breach_path_after_email.1 (strL "a@b.com") (strL "Adobe")
      ⟨Resp.netErr (strL "timeout"), fun _ => Resp.ok 200 Json.null⟩
      (strL "timeout") (by decide) rfl
  · have h := C3_breach_path_after_email.2.2.2.1 (strL "a@b.com") (strL "Adobe")
      ⟨Resp.ok 200 [strL "X"], fun _ => Resp.netErr (strL "boom")⟩
      [] (strL "X") [] (strL "boom") (fun _ => Json.null)
      (by decide) rfl (fun n hn => absurd hn (List.not_mem_nil n)) rfl
    simpa using h

/-!
## Which events each path can emit
-/

theorem breach_lookup_events (breach : Str) (net : Network) :
    ∀ ev ∈ breach_lookup breach net,
      ev = Ev.call (Call.breachDetail breach) ∨ (∃ o, ev = Ev.outcome o) ∨
      (∃ content, ev = Ev.write (breach ++ strL ".json") content) := by
  intro ev h
  unfold breach_lookup at h
  split at h
  · exact absurd h (List.not_mem_nil ev)
  rcases List.mem_cons.1 h with rfl | h
  · exact Or.inl rfl
  split at h
  · obtain rfl := List.mem_singleton.1 h
    exact Or.inr (Or.inl ⟨_, rfl⟩)
  · split at h
    · obtain rfl := List.mem_singleton.1 h
      exact Or.inr (Or.inl ⟨_, rfl⟩)
    split at h
    · obtain rfl := List.mem_singleton.1 h
      exact Or.inr (Or.inl ⟨_, rfl⟩)
    rcases List.mem_cons.1 h with rfl | h
    · exact Or.inr (Or.inr ⟨_, rfl⟩)
    obtain rfl := List.mem_singleton.1 h
    exact Or.inr (Or.inl ⟨_, rfl⟩)

theorem fetch_breaches_events (folder : Str) (net : Network) :
    ∀ (names : List Str) (ev : Ev), ev ∈ (fetch_breaches folder net names).1 →
      (∃ n, n ∈ names ∧ ev = Ev.call (Call.breachDetail n)) ∨
      (∃ n content, n ∈ names ∧ ev = Ev.write (breachFileName folder n) content) ∨
      (∃ o, ev = Ev.outcome o) := by
  intro names
  induction names with
  | nil => intro ev h; exact absurd h (List.not_mem_nil ev)
  | cons n rest ih =>
    intro ev h
    unfold fetch_breaches at h
    split at h
    · next m heq =>
      simp only [List.mem_cons, List.mem_singleton] at h
      rcases h with rfl | rfl | h
      · exact Or.inl ⟨n, List.mem_cons_self n rest, rfl⟩
      · exact Or.inr (Or.inr ⟨_, rfl⟩)
      · exact absurd h (List.not_mem_nil ev)
    · next s body heq =>
      split at h
      · simp only [List.mem_cons, List.mem_singleton] at h
        rcases h with rfl | rfl | h
        · exact Or.inl ⟨n, List.mem_cons_self n rest, rfl⟩
        · exact Or.inr (Or.inr ⟨_, rfl⟩)
        · exact absurd h (List.not_mem_nil ev)
      · dsimp only at h
        rcases List.mem_cons.1 h with rfl | h
        · exact Or.inl ⟨n, List.mem_cons_self n rest, rfl⟩
        rcases List.mem_cons.1 h with rfl | h
        · exact Or.inr (Or.inl ⟨n, _, List.mem_cons_self n rest, rfl⟩)
        rcases ih ev h with ⟨n2, hn2, rfl⟩ | ⟨n2, content, hn2, rfl⟩ | ⟨o, rfl⟩
        · exact Or.inl ⟨n2, List.mem_cons_of_mem n hn2, rfl⟩
        · exact Or.inr (Or.inl ⟨n2, content, List.mem_cons_of_mem n hn2, rfl⟩)
        · exact Or.inr (Or.inr ⟨o, rfl⟩)

theorem email_scan_events (email : Str) (net : Network) :
    ∀ ev ∈ (email_scan email net).1,
      ev = Ev.mkdir (sanitize_email_for_folder email) ∨
      ev = Ev.call (Call.accountLookup email) ∨
      (∃ n s names, net.account = Resp.ok s names ∧ n ∈ names ∧
        ev = Ev.call (Call.breachDetail n)) ∨
      (∃ n content,
        ev = Ev.write (breachFileName (sanitize_email_for_folder email) n) content) ∨
      (∃ o, ev = Ev.outcome o) := by
  intro ev h
  unfold email_scan at h
  split at h
  · exact absurd h (List.not_mem_nil ev)
  dsimp only at h
  split at h
  · simp only [List.mem_append, List.mem_cons, List.not_mem_nil, or_false] at h
    rcases h with (rfl | rfl) | rfl
    · exact Or.inl rfl
    · exact Or.inr (Or.inl rfl)
    · exact Or.inr (Or.inr (Or.inr (Or.inr ⟨_, rfl⟩)))
  · next s names heqa =>
    split at h
    · simp only [List.mem_append, List.mem_cons, List.not_mem_nil, or_false] at h
      rcases h with (rfl | rfl) | rfl
      · exact Or.inl rfl
      · exact Or.inr (Or.inl rfl)
      · exact Or.inr (Or.inr (Or.inr (Or.inr ⟨_, rfl⟩)))
    split at h
    · simp only [List.mem_append, List.mem_cons, List.not_mem_nil, or_false] at h
      rcases h with (rfl | rfl) | rfl
      · exact Or.inl rfl
      · exact Or.inr (Or.inl rfl)
      · exact Or.inr (Or.inr (Or.inr (Or.inr ⟨_, rfl⟩)))
    split at h
    · simp only [List.mem_append, List.mem_cons, List.not_mem_nil, or_false] at h
      rcases h with (rfl | rfl) | rfl
      · exact Or.inl rfl
      · exact Or.inr (Or.inl rfl)
      · exact Or.inr (Or.inr (Or.inr (Or.inr ⟨_, rfl⟩)))
    split at h
    · next evs recs heq =>
      simp only [List.mem_append, List.mem_cons, List.not_mem_nil, or_false] at h
      rcases h with ((rfl | rfl) | h) | rfl
      · exact Or.inl rfl
      · exact Or.inr (Or.inl rfl)
      · have hevs : ev ∈ (fetch_breaches (sanitize_email_for_folder email) net names).1 := by
          rw [heq]; exact h
        rcases fetch_breaches_events _ net _ ev hevs with ⟨n, hn, rfl⟩ | ⟨n, content, _, rfl⟩ | ⟨o, rfl⟩
        · exact Or.inr (Or.inr (Or.inl ⟨n, _, _, heqa, hn, rfl⟩))
        · exact Or.inr (Or.inr (Or.inr (Or.inl ⟨n, content, rfl⟩)))
        · exact Or.inr (Or.inr (Or.inr (Or.inr ⟨o, rfl⟩)))
      · exact Or.inr (Or.inr (Or.inr (Or.inr ⟨_, rfl⟩)))
    · next evs heq =>
      simp only [List.mem_append, List.mem_cons, List.not_mem_nil, or_false] at h
      rcases h with (rfl | rfl) | h
      · exact Or.inl rfl
      · exact Or.inr (Or.inl rfl)
      · have hevs : ev ∈ (fetch_breaches (sanitize_email_for_folder email) net names).1 := by
          rw [heq]; exact h
        rcases fetch_breaches_events _ net _ ev hevs with ⟨n, hn, rfl⟩ | ⟨n, content, _, rfl⟩ | ⟨o, rfl⟩
        · exact Or.inr (Or.inr (Or.inl ⟨n, _, _, heqa, hn, rfl⟩))
        · exact Or.inr (Or.inr (Or.inr (Or.inl ⟨n, content, rfl⟩)))
        · exact Or.inr (Or.inr (Or.inr (Or.inr ⟨o, rfl⟩)))

theorem perform_scan_events (email breach : Str) (net : Network) :
    ∀ ev ∈ perform_scan email breach net,
      ev = Ev.mkdir (sanitize_email_for_folder email) ∨
      ev = Ev.call (Call.accountLookup email) ∨
      (∃ n, (n = breach ∨ ∃ s names, net.account = Resp.ok s names ∧ n ∈ names) ∧
        ev = Ev.call (Call.breachDetail n)) ∨
      (∃ n content,
        ev = Ev.write (breachFileName (sanitize_email_for_folder email) n) content) ∨
      (∃ content, ev = Ev.write (breach ++ strL ".json") content) ∨
      (∃ o, ev = Ev.outcome o) := by
  intro ev h
  unfold perform_scan at h
  dsimp only at h
  have hsplit : ev ∈ (email_scan email net).1 ∨ ev ∈ breach_lookup breach net := by
    split at h
    · exact Or.inl h
    · exact (List.mem_append.1 h).imp id id
  rcases hsplit with h1 | h1
  · rcases email_scan_events email net ev h1 with
      h2 | h2 | ⟨n, s, names, ha, hn, h2⟩ | ⟨n, content, h2⟩ | ⟨o, h2⟩
    · exact Or.inl h2
    · exact Or.inr (Or.inl h2)
    · exact Or.inr (Or.inr (Or.inl ⟨n, Or.inr ⟨s, names, ha, hn⟩, h2⟩))
    · exact Or.inr (Or.inr (Or.inr (Or.inl ⟨n, content, h2⟩)))
    · exact Or.inr (Or.inr (Or.inr (Or.inr (Or.inr ⟨o, h2⟩))))
  · rcases breach_lookup_events breach net ev h1 with h2 | ⟨o, h2⟩ | ⟨content, h2⟩
    · exact Or.inr (Or.inr (Or.inl ⟨breach, Or.inl rfl, h2⟩))
    · exact Or.inr (Or.inr (Or.inr (Or.inr (Or.inr ⟨o, h2⟩))))
    · exact Or.inr (Or.inr (Or.inr (Or.inr (Or.inl ⟨content, h2⟩))))

/-!
## Claim C10: the shell operates on sanitised inputs only
-/

theorem emailChar_not_ctl (c : Char) (h : isEmailChar c = true) :
    c ≠ '\r' ∧ c ≠ '\n' ∧ c ≠ '\t' := by
  refine ⟨?_, ?_, ?_⟩ <;> rintro rfl <;> exact absurd h (by decide)

theorem breachChar_not_ctl (c : Char) (h : isBreachChar c = true) :
    c ≠ '\r' ∧ c ≠ '\n' ∧ c ≠ '\t' := by
  refine ⟨?_, ?_, ?_⟩ <;> rintro rfl <;> exact absurd h (by decide)

/-- C10: the graphical shell's scan entry sanitises both text inputs
before anything else — the sanitised email contains only
`[a-zA-Z0-9@._\-+]` (in particular no CR, LF or tab), the sanitised
breach name only `[a-zA-Z0-9._\-]` — the validation verdicts are
functions of the sanitised values (and the stripped key), and every
URL, folder name and file name in the resulting trace is built from
the sanitised values, never the raw inputs: the account-lookup URL
from the sanitised email, the folder name from its sanitisation, each
breach-detail URL from the sanitised breach name or from a `Name` the
account-lookup response returned, and each file name from the folder
or from the sanitised breach name. -/
theorem C10_sanitized_inputs :
    ∀ (rawEmail rawBreach rawKey : Str) (net : Network),
      (∀ c ∈ sanitized_email rawEmail,
        isEmailChar c = true ∧ c ≠ '\r' ∧ c ≠ '\n' ∧ c ≠ '\t') ∧
      (∀ c ∈ sanitized_breach rawBreach,
        isBreachChar c = true ∧ c ≠ '\r' ∧ c ≠ '\n' ∧ c ≠ '\t') ∧
      ((start_scan rawEmail rawBreach rawKey net).2 = some VErr.missingKey ↔
        pyStrip rawKey = []) ∧
      ((start_scan rawEmail rawBreach rawKey net).2 = some VErr.missingBoth ↔
        pyStrip rawKey ≠ [] ∧ sanitized_email rawEmail = [] ∧
          sanitized_breach rawBreach = []) ∧
      (∀ e, Ev.call (Call.accountLookup e) ∈ (start_scan rawEmail rawBreach rawKey net).1 →
        e = sanitized_email rawEmail) ∧
      (∀ d, Ev.mkdir d ∈ (start_scan rawEmail rawBreach rawKey net).1 →
        d = sanitize_email_for_folder (sanitized_email rawEmail)) ∧
      (∀ f content, Ev.write f content ∈ (start_scan rawEmail rawBreach rawKey net).1 →
        (∃ n, f = breachFileName (sanitize_email_for_folder (sanitized_email rawEmail)) n) ∨
        f = sanitized_breach rawBreach ++ strL ".json") ∧
      (∀ n, Ev.call (Call.breachDetail n) ∈ (start_scan rawEmail rawBreach rawKey net).1 →
        n = sanitized_breach rawBreach ∨
        ∃ s names, net.account = Resp.ok s names ∧ n ∈ names) := by
  intro rawEmail rawBreach rawKey net
  have htr : (start_scan rawEmail rawBreach rawKey net).1 = [] ∨
      (start_scan rawEmail rawBreach rawKey net).1 =
        perform_scan (sanitized_email rawEmail) (sanitized_breach rawBreach) net := by
    unfold start_scan
    dsimp only
    split
    · exact Or.inl rfl
    split
    · exact Or.inl rfl
    · exact Or.inr rfl
  refine ⟨?_, ?_, ?_, ?_, ?_, ?_, ?_, ?_⟩
  · intro c hc
    have h1 : isEmailChar c = true := (List.mem_filter.1 hc).2
    exact ⟨h1, emailChar_not_ctl c h1⟩
  · intro c hc
    have h1 : isBreachChar c = true := (List.mem_filter.1 hc).2
    exact ⟨h1, breachChar_not_ctl c h1⟩
  · unfold start_scan
    dsimp only
    by_cases hk : pyStrip rawKey = []
    · simp [hk]
    · rw [if_neg hk]
      by_cases hb : sanitized_email rawEmail = [] ∧ sanitized_breach rawBreach = []
      · simp [hb, hk]
      · simp [hb, hk]
  · unfold start_scan
    dsimp only
    by_cases hk : pyStrip rawKey = []
    · simp [hk]
    · rw [if_neg hk]
      by_cases hb : sanitized_email rawEmail = [] ∧ sanitized_breach rawBreach = []
      · simp [hb, hk]
      · simp only [if_neg hb]
        simp only [not_and] at hb
        constructor
        · intro hfalse; exact absurd hfalse (by simp)
        · rintro ⟨_, he, hbr⟩
          exact absurd hbr (hb he)
  · intro e hmem
    rcases htr with h0 | h0
    · rw [h0] at hmem; exact absurd hmem (List.not_mem_nil _)
    rw [h0] at hmem
    rcases perform_scan_events _ _ net _ hmem with
      h2 | h2 | ⟨n, hprov, h2⟩ | ⟨n, content, h2⟩ | ⟨content, h2⟩ | ⟨o, h2⟩
    · exact absurd h2 (by simp)
    · simp only [Ev.call.injEq, Call.accountLookup.injEq] at h2
      exact h2
    · exact absurd h2 (by simp)
    · exact absurd h2 (by simp)
    · exact absurd h2 (by simp)
    · exact absurd h2 (by simp)
  · intro d hmem
    rcases htr with h0 | h0
    · rw [h0] at hmem; exact absurd hmem (List.not_mem_nil _)
    rw [h0] at hmem
    rcases perform_scan_events _ _ net _ hmem with
      h2 | h2 | ⟨n, hprov, h2⟩ | ⟨n, content, h2⟩ | ⟨content, h2⟩ | ⟨o, h2⟩
    · simp only [Ev.mkdir.injEq] at h2
      exact h2
    · exact absurd h2 (by simp)
    · exact absurd h2 (by simp)
    · exact absurd h2 (by simp)
    · exact absurd h2 (by simp)
    · exact absurd h2 (by simp)
  · intro f content hmem
    rcases htr with h0 | h0
    · rw [h0] at hmem; exact absurd hmem (List.not_mem_nil _)
    rw [h0] at hmem
    rcases perform_scan_events _ _ net _ hmem with
      h2 | h2 | ⟨n, hprov, h2⟩ | ⟨n, c2, h2⟩ | ⟨c2, h2⟩ | ⟨o, h2⟩
    · exact absurd h2 (by simp)
    · exact absurd h2 (by simp)
    · exact absurd h2 (by simp)
    · simp only [Ev.write.injEq] at h2
      exact Or.inl ⟨n, h2.1⟩
    · simp only [Ev.write.injEq] at h2
      exact Or.inr h2.1
    · exact absurd h2 (by simp)
  · intro n hmem
    rcases htr with h0 | h0
    · rw [h0] at hmem; exact absurd hmem (List.not_mem_nil _)
    rw [h0] at hmem
    rcases perform_scan_events _ _ net _ hmem with
      h2 | h2 | ⟨n2, hprov, h2⟩ | ⟨n2, c2, h2⟩ | ⟨c2, h2⟩ | ⟨o, h2⟩
    · exact absurd h2 (by simp)
    · exact absurd h2 (by simp)
    · simp only [Ev.call.injEq, Call.breachDetail.injEq] at h2
      subst h2
      exact hprov
    · exact absurd h2 (by simp)
    · exact absurd h2 (by simp)
    · exact absurd h2 (by simp)

/-- C10 witness: a raw email containing a newline sanitises to
`a@b.com`; its characters all lie in the email character class. -/
theorem C10_witness :
    isEmailChar 'a' = true ∧ 'a' ≠ '\r' ∧ 'a' ≠ '\n' ∧ 'a' ≠ '\t' :=
  (C10_sanitized_inputs (strL "a@b\n.com") [] (strL "k")
    ⟨Resp.ok 404 [], fun _ => Resp.ok 404 Json.null⟩).1 'a' (by decide)

end Nullnet
